import Mathlib

/-!
Verification of the cleaning / feature-transformation pipeline of the
`bosch_cit_assessment` repository (`src/data_processing.py` and
`src/data_transformation.py`).

A pandas `DataFrame` is modelled as a row-major `Table`: an ordered header of
(column name, dtype) pairs and a list of rows, each row a list of typed cells.
Python floats are modelled by exact rationals; `NaN` (missing data) is the
dedicated cell `Cell.na`; timestamps are integer day counts.

External library primitives that the repository calls but does not define
(scipy's KS test, `math`-level square roots inside `pandas.std`,
`pandas.to_datetime` parsing, timezone localization, and the wall clock read by
`datetime.datetime.now`) are gathered in an explicit environment `Ext` passed
to the embedded functions; concrete instantiations are used for witnesses.

Functions that can raise Python exceptions (`KeyError` on a missing column,
`TypeError`/`ValueError`/`NameError` in tag decomposition, parse errors in
`pandas.to_datetime`) return `Except String _`.  `remove_outliers`, which can
fall off the end of its `for` loop and implicitly return Python `None`,
returns `Option Table`.  Diagnostic `print` calls are modelled as a list of
emitted messages accompanying the result (the printed Python list formatting
is abbreviated to a comma-separated rendering of the column names).
-/

namespace CIT

/-- A single cell of a table: missing (`NaN`/`NaT`), a string, an integer, a
float (modelled as an exact rational), or a timestamp (day count). -/
inductive Cell
  | na
  | str (s : String)
  | int (n : Int)
  | float (q : ℚ)
  | date (d : Int)
deriving DecidableEq, Repr

/-- The pandas dtype of a column, as far as the pipeline inspects it
(`select_dtypes('float')` and the datetime conversions). -/
inductive Dtype
  | float
  | int
  | obj
  | datetime
deriving DecidableEq, Repr

/-- A DataFrame: named, dtyped columns over a list of rows. -/
structure Table where
  header : List (String × Dtype)
  rows : List (List Cell)
deriving DecidableEq, Repr

namespace Table

/-- Column names, in order. -/
def names (t : Table) : List String := t.header.map Prod.fst

/-- `df.shape[0]`. -/
def nRows (t : Table) : Nat := t.rows.length

/-- Position of a named column (`KeyError` when absent is handled by callers). -/
def colIdx (t : Table) (name : String) : Option Nat :=
  t.header.findIdx? (fun p => p.1 == name)

/-- The cells of the `j`-th column, top to bottom. -/
def colCells (t : Table) (j : Nat) : List Cell :=
  t.rows.map (fun r => r.getD j Cell.na)

/-- The cells of a named column. -/
def colByName (t : Table) (name : String) : Option (List Cell) :=
  (t.colIdx name).map t.colCells

end Table

/-- Look up a column index, raising `KeyError` as pandas does. -/
def getIdx (t : Table) (name : String) : Except String Nat :=
  match t.colIdx name with
  | some j => .ok j
  | none => .error ("KeyError: " ++ name)

/-- `column.isna().sum()`: the number of missing cells of a column. -/
def count_missing (cells : List Cell) : Nat :=
  cells.countP (fun c => decide (c = Cell.na))

/-- Keep the first occurrence of each distinct element, in order: the row set
selected by `df.loc[~df.duplicated()]` (pandas marks as duplicated every row
equal to an earlier one), and likewise the distinct values of `Series.unique`.
The accumulator holds the elements already seen. -/
def dedupFirstAux {α : Type} [DecidableEq α] : List α → List α → List α
  | _, [] => []
  | seen, a :: l =>
      if a ∈ seen then dedupFirstAux seen l
      else a :: dedupFirstAux (a :: seen) l

/-- `df.loc[~df.duplicated()]` / `Series.unique`: first occurrences kept. -/
def dedupFirst {α : Type} [DecidableEq α] (l : List α) : List α :=
  dedupFirstAux [] l

/-- Select the columns at the index positions in `ks` (in that order).
Used both for boolean-mask column selection (`df.loc[:, mask]`) and for
label-list selection (`df.loc[:, list]`, `df.drop(..., axis=1)`). -/
def selectIdxs (t : Table) (ks : List Nat) : Table :=
  { header := ks.map (fun j => t.header.getD j ("", Dtype.obj)),
    rows := t.rows.map (fun r => ks.map (fun j => r.getD j Cell.na)) }

/-- `df.loc[:, mask]`: keep the columns whose index satisfies `keep`. -/
def selectColsWhere (t : Table) (keep : Nat → Bool) : Table :=
  selectIdxs t ((List.range t.header.length).filter keep)

/-- `df.drop(name, axis=1)`: drop one named column (`KeyError` when absent). -/
def dropCol (t : Table) (name : String) : Except String Table :=
  match t.colIdx name with
  | none => .error ("KeyError: " ++ name)
  | some _ =>
      .ok (selectColsWhere t
        (fun j => !((t.header.getD j ("", Dtype.obj)).1 == name)))

/-- `df.drop(list_of_names, axis=1)`: pandas raises when any label is absent. -/
def dropCols (t : Table) (cols : List String) : Except String Table :=
  match cols with
  | [] => .ok t
  | c :: rest => do
      let t' ← dropCol t c
      dropCols t' rest

/-- Replace the cells and dtype of column `j`. -/
def setCol (t : Table) (j : Nat) (dt : Dtype) (cells : List Cell) : Table :=
  { header := t.header.set j ((t.header.getD j ("", Dtype.obj)).1, dt),
    rows := (t.rows.zip cells).map (fun rc => rc.1.set j rc.2) }

/-- The numeric value of a cell, when it has one (pandas arithmetic treats
int and float columns alike; `NaN` propagates as `none`). -/
def Cell.toQ : Cell → Option ℚ
  | Cell.int n => some n
  | Cell.float q => some q
  | _ => none

/-- The numeric values of a column, skipping missing cells, as pandas
`mean`/`std`/`quantile` do (`skipna=True`). -/
def numValues (cells : List Cell) : List ℚ :=
  cells.filterMap Cell.toQ

/-- `Series.mean()` over the non-missing values (0 in place of pandas' `NaN`
on an empty column; the embedded code never branches on that case). -/
def meanQ (l : List ℚ) : ℚ := l.sum / l.length

/-- `Series.var()` (`ddof=1`): `none` models the `NaN` pandas returns on
fewer than two values. -/
def sampleVar? (l : List ℚ) : Option ℚ :=
  if l.length < 2 then none
  else some ((l.map (fun x => (x - meanQ l) ^ 2)).sum / (l.length - 1 : ℚ))

/-- `Series.std() == 0`: true exactly when the sample variance is zero
(`NaN`, from fewer than two values, compares unequal to 0). -/
def stdIsZero (cells : List Cell) : Bool :=
  sampleVar? (numValues cells) == some 0

/-- External primitives the repository calls but does not define: scipy's
KS test p-value (consulted on the normalized series, missing entries
included), the floating square root used inside `pandas.std`, the
`pandas.to_datetime` parsers (with format `'%Y-%m-%d'`, with
`errors='coerce'`, and format-free), timezone localization to US/Eastern,
and the two wall-clock readings of `datetime.datetime.now` (naive and UTC).
Timestamps are day counts, so `Timedelta.days` is plain subtraction. -/
structure Ext where
  ksPValue : List (Option ℚ) → ℚ
  sqrtQ : ℚ → ℚ
  toDatetimeYMD : String → Option Int
  toDatetimeAny : String → Option Int
  tzEastern : Int → Int
  nowNaive : Int
  nowUtc : Int

/-! ## `src/data_processing.py` -/

/-- `remove_duplicates` (data_processing.py:5-17): drop rows duplicating an
earlier row, then drop the repeated French column when present. -/
def remove_duplicates (t : Table) : Table :=
  let t1 : Table := { t with rows := dedupFirst t.rows }
  if "Groups With Access Code (French)" ∈ t1.names then
    selectColsWhere t1
      (fun j => !((t1.header.getD j ("", Dtype.obj)).1
        == "Groups With Access Code (French)"))
  else t1

/-- `perc_missing_data` of one column: `df.isna().sum() / df.shape[0] * 100`
(a nonempty table is assumed; pandas yields `NaN` on an empty one). -/
def colMissingPerc (t : Table) (j : Nat) : ℚ :=
  (count_missing (t.colCells j) : ℚ) / (t.nRows : ℚ) * 100

/-- data_processing.py:36: `df.loc[:, perc_missing_data < 50]`, the
percentages computed on the step's input table. -/
def dropHighMissingCols (t : Table) : Table :=
  selectColsWhere t (fun j => decide (colMissingPerc t j < 50))

/-- data_processing.py:51-52: for each remaining column with under 2% missing
data (left to right), drop the rows where that column is missing. -/
def dropLowMissingRows (t : Table) : Table :=
  ((List.range t.header.length).filter
      (fun j => decide (colMissingPerc t j < 2))).foldl
    (fun acc j =>
      { acc with rows := acc.rows.filter (fun r => !(r.getD j Cell.na == Cell.na)) })
    t

/-- One pass of data_processing.py:63-65 (and 68-72): in column `colName`,
fill the missing cells of rows whose `'Fuel Type Code'` is not `'ELEC'`
(pandas: `NaN != 'ELEC'` holds) with `fillVal`, then drop the rows where the
column is still missing.  Both column lookups can raise `KeyError`. -/
def evFillStep (t : Table) (colName : String) (fillVal : Cell) :
    Except String Table := do
  let jc ← getIdx t colName
  let jf ← getIdx t "Fuel Type Code"
  let filled := t.rows.map (fun r =>
    if r.getD jc Cell.na = Cell.na ∧ ¬ r.getD jf Cell.na = Cell.str "ELEC"
    then r.set jc fillVal else r)
  .ok { t with rows := filled.filter (fun r => !(r.getD jc Cell.na == Cell.na)) }

/-- data_processing.py:57-72, the `source == 'dep_energy'` branch: fill the
three EV text columns with `'Not Applicable'`, then the EV count column with
`0` (a float column in the dataset, hence `0.0`). -/
def evBranch (t : Table) : Except String Table := do
  let t ← evFillStep t "EV Network" (Cell.str "Not Applicable")
  let t ← evFillStep t "EV Network Web" (Cell.str "Not Applicable")
  let t ← evFillStep t "EV Connector Types" (Cell.str "Not Applicable")
  evFillStep t "EV Level2 EVSE Num" (Cell.float 0)

/-- data_processing.py:76, the `source == 'epa'` branch:
`df = df[~df['drive'].isna()]`. -/
def epaDriveFilter (t : Table) : Except String Table := do
  let j ← getIdx t "drive"
  .ok { t with rows := t.rows.filter (fun r => !(r.getD j Cell.na == Cell.na)) }

/-- `deal_with_missing_data` (data_processing.py:20-78).  The two verbose
prints report the columns dropped for ≥50% missing data (percentages on the
input table) and the remaining columns with <2% missing data. -/
def deal_with_missing_data (t : Table) (source : String) (verbose : Bool) :
    Except String (Table × List String) :=
  let t1 := dropHighMissingCols t
  let t2 := dropLowMissingRows t1
  let logs :=
    if verbose then
      ["Too many missing values - dropped these columns: " ++
        String.intercalate ", "
          (((List.range t.header.length).filter
              (fun j => decide (50 ≤ colMissingPerc t j))).map
            (fun j => (t.header.getD j ("", Dtype.obj)).1)),
       "These columns have few missing values - dropped those entries: " ++
        String.intercalate ", "
          (((List.range t1.header.length).filter
              (fun j => decide (colMissingPerc t1 j < 2))).map
            (fun j => (t1.header.getD j ("", Dtype.obj)).1))]
    else []
  if source = "dep_energy" then (evBranch t2).map (fun t' => (t', logs))
  else if source = "epa" then (epaDriveFilter t2).map (fun t' => (t', logs))
  else .ok (t2, logs)

/-- Parse one column with `pandas.to_datetime`.  A missing cell stays
missing (`NaT`); a string goes through the given parser; `strict` decides
whether an unparseable string raises or becomes `NaT` (`errors='coerce'`).
Non-string cells raise, as `to_datetime` does on these text columns. -/
def parseDateCol (t : Table) (name : String) (parse : String → Option Int)
    (strict : Bool) : Except String Table := do
  let j ← getIdx t name
  let parsed ← (t.colCells j).mapM (fun c =>
    match c with
    | Cell.na => Except.ok Cell.na
    | Cell.str s =>
        match parse s with
        | some d => Except.ok (Cell.date d)
        | none =>
            if strict then Except.error ("to_datetime: " ++ s)
            else Except.ok Cell.na
    | _ => Except.error "to_datetime: non-string cell")
  .ok (setCol t j Dtype.datetime parsed)

/-- data_processing.py:97/100: `.str.replace('EST|EDT', '', regex=True)`. -/
def stripTZAbbrev (s : String) : String :=
  (s.replace "EST" "").replace "EDT" ""

/-- Parse an EPA timestamp column: strip the timezone abbreviation, parse
(`to_datetime` raises on failure here), then `tz_localize('US/Eastern')`. -/
def parseEpaDateCol (ext : Ext) (t : Table) (name : String) :
    Except String Table := do
  let j ← getIdx t name
  let parsed ← (t.colCells j).mapM (fun c =>
    match c with
    | Cell.na => Except.ok Cell.na
    | Cell.str s =>
        match ext.toDatetimeAny (stripTZAbbrev s) with
        | some d => Except.ok (Cell.date (ext.tzEastern d))
        | none => Except.error ("to_datetime: " ++ s)
    | _ => Except.error "to_datetime: non-string cell")
  .ok (setCol t j Dtype.datetime parsed)

/-- `fix_data_types` (data_processing.py:81-106): strict, lenient and plain
datetime parses for DEP_ENERGY (then dropping rows with an unparseable
`'Open Date'`), stripped-and-localized parses for EPA.  The completion
message is printed for any source when verbose. -/
def fix_data_types (ext : Ext) (t : Table) (source : String) (verbose : Bool) :
    Except String (Table × List String) := do
  let logs := if verbose then ["Date types fixed"] else []
  if source = "dep_energy" then do
    let t ← parseDateCol t "Date Last Confirmed" ext.toDatetimeYMD true
    let t ← parseDateCol t "Open Date" ext.toDatetimeYMD false
    let t ← parseDateCol t "Updated At" ext.toDatetimeAny true
    let j ← getIdx t "Open Date"
    .ok ({ t with rows := t.rows.filter (fun r => !(r.getD j Cell.na == Cell.na)) },
         logs)
  else if source = "epa" then do
    let t ← parseEpaDateCol ext t "createdOn"
    let t ← parseEpaDateCol ext t "modifiedOn"
    .ok (t, logs)
  else .ok (t, logs)

/-- `remove_unnecessary_columns` (data_processing.py:109-122). -/
def remove_unnecessary_columns (t : Table) (source : String) :
    Except String Table :=
  if source = "dep_energy" then dropCol t "Groups With Access Code"
  else if source = "epa" then
    dropCols t ["charge120", "range", "rangeCity", "rangeHwy"]
  else .ok t

/-- `fix_typos` (data_processing.py:125-133): rows whose `'State'` is a
Canadian province get `'Country'` set to `'CA'`. -/
def fix_typos (t : Table) : Except String Table := do
  let js ← getIdx t "State"
  let jc ← getIdx t "Country"
  .ok { t with rows := t.rows.map (fun r =>
    if r.getD js Cell.na ∈ [Cell.str "BC", Cell.str "ON", Cell.str "QC"]
    then r.set jc (Cell.str "CA") else r) }

/-- pandas `Series.quantile(p)` with linear interpolation over the sorted
non-missing values. -/
def quantileQ (vals : List ℚ) (p : ℚ) : ℚ :=
  let ws := vals.insertionSort (· ≤ ·)
  let h : ℚ := ((ws.length : ℚ) - 1) * p
  let lo : Nat := h.floor.toNat
  let a := ws.getD lo 0
  a + (h - (lo : ℚ)) * (ws.getD (lo + 1) a - a)

/-- The outlier mask of data_processing.py:153-161 for one column, and the
row filter `df[~outlier_flag]`.  When the sample standard deviation is `NaN`
(fewer than two values) the KS p-value is `NaN`, `NaN > .05` is false, and
the IQR branch runs; missing cells are never flagged (`NaN` comparisons are
false). -/
def outlierKeepRows (ext : Ext) (t : Table) (j : Nat) : List (List Cell) :=
  let vals := numValues (t.colCells j)
  let isOut : ℚ → Bool :=
    match sampleVar? vals with
    | none =>
        let q1 := quantileQ vals (1/4)
        let q3 := quantileQ vals (3/4)
        fun x => decide (x < q1 - 3/2 * (q3 - q1) ∨ q3 + 3/2 * (q3 - q1) < x)
    | some v =>
        let m := meanQ vals
        let s := ext.sqrtQ v
        let normCol := (t.colCells j).map (fun c => c.toQ.map (fun x => (x - m) / s))
        if ext.ksPValue normCol > 1/20 then
          fun x => decide (x < m - 3 * s ∨ m + 3 * s < x)
        else
          let q1 := quantileQ vals (1/4)
          let q3 := quantileQ vals (3/4)
          fun x => decide (x < q1 - 3/2 * (q3 - q1) ∨ q3 + 3/2 * (q3 - q1) < x)
  t.rows.filter (fun r =>
    match (r.getD j Cell.na).toQ with
    | some x => !isOut x
    | none => true)

/-- `remove_outliers` (data_processing.py:136-165).  The `return df` sits
inside the `for col in df.select_dtypes('float')` loop, so the function
returns after processing the first float column; with no float column the
loop body never runs and Python returns `None`. -/
def remove_outliers (ext : Ext) (t : Table) : Option Table :=
  match (List.range t.header.length).filter
      (fun j => (t.header.getD j ("", Dtype.obj)).2 == Dtype.float) with
  | [] => none
  | j :: _ => some { t with rows := outlierKeepRows ext t j }

/-- `process_data` (data_processing.py:168-199).  Reading the CSV and
splitting the source identifier out of the path are I/O outside the model:
the function takes the loaded table and the source.  The result is `None`
exactly when the EPA branch's `remove_outliers` returns `None`.  The log
carries the function's own warning and the sub-steps' verbose messages. -/
def process_data (ext : Ext) (t : Table) (source : String) (verbose : Bool) :
    Except String (Option Table × List String) :=
  if ¬ (source = "dep_energy" ∨ source = "epa") then .ok (some t, ["Unknown source"])
  else do
    let t := remove_duplicates t
    let (t, log1) ← deal_with_missing_data t source verbose
    let (t, log2) ← fix_data_types ext t source verbose
    let t ← remove_unnecessary_columns t source
    if source = "dep_energy" then do
      let t ← fix_typos t
      .ok (some t, log1 ++ log2)
    else
      .ok (remove_outliers ext t, log1 ++ log2)

/-! ## `src/data_transformation.py` -/

/-- `features_to_keep_per_source['dep_energy']['num_features_to_keep']`. -/
def num_features_dep_energy : List String :=
  ["EV Level2 EVSE Num", "Latitude", "Longitude"]

/-- `features_to_keep_per_source['epa']['num_features_to_keep']`. -/
def num_features_epa : List String :=
  ["barrels08", "barrelsA08", "charge240", "city08", "city08U", "cityA08",
   "cityA08U", "cityCD", "cityE", "cityUF", "co2", "co2A",
   "co2TailpipeAGpm", "co2TailpipeGpm", "comb08", "comb08U", "combA08",
   "combA08U", "combE", "combinedCD", "combinedUF", "cylinders", "displ",
   "engId", "feScore", "fuelCost08", "fuelCostA08", "ghgScore",
   "ghgScoreA", "highway08", "highway08U", "highwayA08", "highwayA08U",
   "highwayCD", "highwayE", "highwayUF", "hlv", "hpv", "id", "lv2", "lv4",
   "pv2", "pv4", "rangeCityA", "rangeHwyA", "UCity", "UCityA", "UHighway",
   "UHighwayA", "year", "youSaveSpend", "charge240b", "phevCity",
   "phevHwy", "phevComb"]

/-- The per-source numeric feature list. -/
def num_features_to_keep (source : String) : List String :=
  if source = "dep_energy" then num_features_dep_energy else num_features_epa

/-- The per-source date feature list. -/
def date_features_to_keep (source : String) : List String :=
  if source = "dep_energy" then ["Open Date"] else ["createdOn", "modifiedOn"]

/-- The per-source categorical feature list. -/
def cat_features_to_keep (source : String) : List String :=
  if source = "dep_energy" then
    ["Fuel Type Code", "Country", "State", "Geocode Status",
     "Status Code", "Access Code", "EV Network"]
  else
    ["drive", "fuelType1", "make", "mpgData", "trany", "VClass", "phevBlended"]

/-- The per-source tag feature list. -/
def tag_features_to_keep (source : String) : List String :=
  if source = "dep_energy" then ["EV Connector Types"] else ["fuelType"]

/-- data_transformation.py:178: the flattening of the dict values in
insertion order (numeric, date, categorical, tag). -/
def features_to_keep (source : String) : List String :=
  num_features_to_keep source ++ date_features_to_keep source ++
    cat_features_to_keep source ++ tag_features_to_keep source

/-- `df.loc[:, features_to_keep]` (data_transformation.py:181): reindex the
columns to the given label list; pandas raises on a missing label. -/
def selectByNames (t : Table) (names : List String) : Except String Table := do
  let ks ← names.mapM (getIdx t)
  .ok (selectIdxs t ks)

/-- Standardize the named columns in place:
`df[feats] = (df[feats] - df[feats].mean()) / df[feats].std()` per column
(cells become float; missing cells stay missing; a `NaN` standard deviation,
from fewer than two values, turns every cell into `NaN`). -/
def normalizeCols (ext : Ext) (t : Table) (feats : List String) :
    Except String Table :=
  match feats with
  | [] => .ok t
  | f :: rest => do
      let j ← getIdx t f
      let vals := numValues (t.colCells j)
      let newCells :=
        match sampleVar? vals with
        | none => (t.colCells j).map (fun _ => Cell.na)
        | some v =>
            let m := meanQ vals
            let s := ext.sqrtQ v
            (t.colCells j).map (fun c =>
              match c.toQ with
              | some x => Cell.float ((x - m) / s)
              | none => Cell.na)
      normalizeCols ext (setCol t j Dtype.float newCells) rest

/-- `process_num_features` (data_transformation.py:67-80).  Line 74 rebinds
`num_feats` to the features with nonzero standard deviation *before* line 75
builds the drop list from the rebound `num_feats`; the drop list is therefore
always empty and `df.drop` removes nothing.  `df[num_feats].std()` needs
every listed column, so a missing one raises `KeyError`. -/
def process_num_features (ext : Ext) (t : Table) (num_feats : List String) :
    Except String Table := do
  let _ ← num_feats.mapM (getIdx t)
  let std0 : String → Bool := fun f =>
    match t.colIdx f with
    | some j => stdIsZero (t.colCells j)
    | none => false
  if num_feats.any std0 then
    let num_feats' := num_feats.filter (fun f => !(std0 f))
    let t ← dropCols t (num_feats'.filter std0)
    normalizeCols ext t num_feats'
  else
    normalizeCols ext t num_feats

/-- `process_date_features` (data_transformation.py:83-96): each date column
becomes `(now - value).dt.days`, with the UTC clock for EPA and the naive
clock otherwise (the code re-reads the clock per column; the model uses the
given readings). -/
def process_date_features (ext : Ext) (t : Table) (date_feats : List String)
    (source : String) : Except String Table :=
  match date_feats with
  | [] => .ok t
  | f :: rest => do
      let j ← getIdx t f
      let now := if source = "epa" then ext.nowUtc else ext.nowNaive
      let newCells := (t.colCells j).map (fun c =>
        match c with
        | Cell.date d => Cell.int (now - d)
        | _ => Cell.na)
      process_date_features ext (setCol t j Dtype.int newCells) rest source

/-- The distinct string levels of a categorical column in the sorted order
`pd.get_dummies` uses (missing cells excluded). -/
def strLevels (cells : List Cell) : List String :=
  (dedupFirst (cells.filterMap (fun c =>
    match c with | Cell.str s => some s | _ => none))).insertionSort (· ≤ ·)

/-- The indicator row of one cell under
`pd.get_dummies(column, drop_first=True)`: one 0/1 entry per retained level
(the first sorted level is dropped). -/
def indicatorRow (cells : List Cell) (c : Cell) : List Cell :=
  ((strLevels cells).drop 1).map (fun l =>
    if c = Cell.str l then Cell.int 1 else Cell.int 0)

/-- `pd.get_dummies(df[col], drop_first=True, prefix=col)`
(data_transformation.py:120): the retained indicator column names and the
indicator rows. -/
def getDummies (cells : List Cell) (colName : String) :
    List String × List (List Cell) :=
  (((strLevels cells).drop 1).map (fun l => colName ++ "_" ++ l),
   cells.map (indicatorRow cells))

/-- `Series.value_counts().index[-1]`: the least frequent non-missing value
(counts descending; pandas does not fix the order of tied counts — the model
breaks ties by first appearance). -/
def smallestLevel (cells : List Cell) : Cell :=
  let lvls := dedupFirst (cells.filter (fun c => !(c == Cell.na)))
  ((lvls.insertionSort (fun a b =>
      cells.count b ≤ cells.count a)).getLastD Cell.na)

/-- 0/1 addition of two indicator columns (data_transformation.py:125-126). -/
def cellAddInt : Cell → Cell → Cell
  | Cell.int a, Cell.int b => Cell.int (a + b)
  | _, _ => Cell.na

/-- data_transformation.py:124-127: merge the combined 4WD/AWD indicator
into both specific indicators and drop it (all three lookups can raise). -/
def driveFix (t : Table) : Except String Table := do
  let j4 ← getIdx t "drive_4-Wheel Drive"
  let ja ← getIdx t "drive_All-Wheel Drive"
  let jb ← getIdx t "drive_4-Wheel or All-Wheel Drive"
  let t := setCol t j4 Dtype.int
    (((t.colCells j4).zip (t.colCells jb)).map (fun p => cellAddInt p.1 p.2))
  let t := setCol t ja Dtype.int
    (((t.colCells ja).zip (t.colCells jb)).map (fun p => cellAddInt p.1 p.2))
  dropCol t "drive_4-Wheel or All-Wheel Drive"

/-- One iteration of the `process_cat_features` loop for column `col`:
binary encoding when `len(unique()) == 2` (`unique` counts `NaN` as a
level), otherwise one-hot encoding appended after `df.drop(col, axis=1)`,
followed by the drive fix when `col == 'drive'`. -/
def processCatOne (t : Table) (col : String) : Except String Table := do
  let j ← getIdx t col
  let cells := t.colCells j
  let t' ←
    if (dedupFirst cells).length = 2 then
      pure (setCol t j Dtype.int (cells.map (fun c =>
        if c = smallestLevel cells then Cell.int 1 else Cell.int 0)))
    else do
      let d := getDummies cells col
      let tdrop ← dropCol t col
      pure { header := tdrop.header ++ d.1.map (fun n => (n, Dtype.int)),
             rows := (tdrop.rows.zip d.2).map (fun p => p.1 ++ p.2) }
  if col = "drive" then driveFix t' else .ok t'

/-- `process_cat_features` (data_transformation.py:99-129). -/
def process_cat_features (t : Table) (cat_feats : List String) :
    Except String Table :=
  match cat_feats with
  | [] => .ok t
  | c :: rest => do
      let t' ← processCatOne t c
      process_cat_features t' rest

/-- The regex split `' (and|or) '` with its capture group: the conjunction
tokens appear between the parts (alternation modelled by nested splits),
and the comprehension in data_transformation.py:147 then discards them. -/
def splitAndOr (s : String) : List String :=
  ((s.splitOn " and ").map (fun part =>
      (part.splitOn " or ").intersperse "or")).intersperse ["and"] |>.flatten
    |>.filter (fun item => item ≠ "or" ∧ item ≠ "and")

/-- The per-row tag sets of one tag feature: `none` for the rows the split
excludes (`'Not Applicable'` connector types), which the later `fillna(0)`
turns into all-zero rows.  Feature names other than the two known ones leave
`list_tags_per_entry` undefined (a Python `NameError`); a non-string cell
reaching the split raises a `TypeError`. -/
def tagSets (tagFeat : String) (cells : List Cell) :
    Except String (List (Option (List String))) :=
  if tagFeat = "EV Connector Types" then
    cells.mapM (fun c =>
      match c with
      | Cell.str s =>
          if s = "Not Applicable" then Except.ok none
          else Except.ok (some (s.splitOn " "))
      | _ => Except.error "TypeError: non-string connector types cell")
  else if tagFeat = "fuelType" then
    cells.mapM (fun c =>
      match c with
      | Cell.str s => Except.ok (some (splitAndOr s))
      | _ => Except.error "TypeError: non-string fuelType cell")
  else Except.error "NameError: list_tags_per_entry"

/-- One iteration of the `process_tag_features` loop: build one 0/1 column
per distinct tag (`pd.concat` raises when there is none), drop the tag
feature, append the indicators, `fillna(0)` for the excluded rows. -/
def processTagOne (t : Table) (tagFeat : String) : Except String Table := do
  let j ← getIdx t tagFeat
  let sets ← tagSets tagFeat (t.colCells j)
  let tags := dedupFirst (sets.filterMap id).flatten
  if tags = [] then Except.error "ValueError: no objects to concatenate"
  else do
    let tdrop ← dropCol t tagFeat
    .ok { header := tdrop.header ++ tags.map (fun n => (n, Dtype.int)),
          rows := (tdrop.rows.zip sets).map (fun p =>
            p.1 ++ tags.map (fun tag =>
              match p.2 with
              | some ts => if tag ∈ ts then Cell.int 1 else Cell.int 0
              | none => Cell.int 0)) }

/-- `process_tag_features` (data_transformation.py:132-164). -/
def process_tag_features (t : Table) (tag_feats : List String) :
    Except String Table :=
  match tag_feats with
  | [] => .ok t
  | f :: rest => do
      let t' ← processTagOne t f
      process_tag_features t' rest

/-- `transform_data` (data_transformation.py:167-203): the unknown-source
guard, column selection, then the four per-kind transforms.  The four
completion messages are printed when verbose (all four are emitted exactly
on the success path; an exception aborts the run). -/
def transform_data (ext : Ext) (t : Table) (source : String) (verbose : Bool) :
    Except String (Table × List String) :=
  if ¬ (source = "dep_energy" ∨ source = "epa") then .ok (t, ["Unknown source"])
  else
    match selectByNames t (features_to_keep source) with
    | .error e => .error e
    | .ok t1 =>
      match process_num_features ext t1 (num_features_to_keep source) with
      | .error e => .error e
      | .ok t2 =>
        match process_date_features ext t2 (date_features_to_keep source) source with
        | .error e => .error e
        | .ok t3 =>
          match process_cat_features t3 (cat_features_to_keep source) with
          | .error e => .error e
          | .ok t4 =>
            match process_tag_features t4 (tag_features_to_keep source) with
            | .error e => .error e
            | .ok t5 =>
                .ok (t5,
                  if verbose then
                    ["Numerical features processed", "Date features processed",
                     "Categorical features processed", "Tag features processed"]
                  else [])

/-! ## Concrete environments and tables for witnesses -/

instance exceptDecEq {ε α : Type} [DecidableEq ε] [DecidableEq α] :
    DecidableEq (Except ε α) := fun a b =>
  match a, b with
  | .ok x, .ok y =>
      match decEq x y with
      | isTrue h => isTrue (by rw [h])
      | isFalse h => isFalse (fun hh => h (Except.ok.inj hh))
  | .ok _, .error _ => isFalse (fun hh => Except.noConfusion hh)
  | .error _, .ok _ => isFalse (fun hh => Except.noConfusion hh)
  | .error e, .error f =>
      match decEq e f with
      | isTrue h => isTrue (by rw [h])
      | isFalse h => isFalse (fun hh => h (Except.error.inj hh))

/-- A concrete external environment: exact rational square root (the
variances appearing in the concrete tables below are perfect squares, where
`Rat.sqrt` agrees with the floating square root), a KS test that always
rejects normality (p-value 0), trivial date parsing and clock readings. -/
def extQ : Ext where
  ksPValue := fun _ => 0
  sqrtQ := Rat.sqrt
  toDatetimeYMD := fun _ => some 0
  toDatetimeAny := fun _ => some 0
  tzEastern := id
  nowNaive := 0
  nowUtc := 0

/-- `extQ` with the naive wall clock at day `n`. -/
def extNow (n : Int) : Ext := { extQ with nowNaive := n }

/-- A two-column, two-row table used by the unknown-source witness. -/
def tPlain : Table :=
  { header := [("a", Dtype.float), ("b", Dtype.obj)],
    rows := [[Cell.float 1, Cell.str "x"], [Cell.float 2, Cell.str "y"]] }

/-! ## Claims -/

/-- C5: for every input table and every source identifier outside
DEP_ENERGY/EPA, both the Cleaner (`process_data`) and the Transformer
(`transform_data`) return the input table unchanged together with the
`'Unknown source'` warning, performing none of their transformation steps. -/
theorem unknown_source_returns_input (ext : Ext) (t : Table) (source : String)
    (verbose : Bool) (h1 : source ≠ "dep_energy") (h2 : source ≠ "epa") :
    process_data ext t source verbose = .ok (some t, ["Unknown source"]) ∧
    transform_data ext t source verbose = .ok (t, ["Unknown source"]) := by
  refine ⟨?_, ?_⟩
  · unfold process_data
    simp [h1, h2]
  · unfold transform_data
    simp [h1, h2]

/-- Witness for C5 at the concrete source `'dep_of_energy'` (a plausible
near-miss identifier) and a concrete table. -/
theorem unknown_source_returns_input_w :
    process_data extQ tPlain "dep_of_energy" true
        = .ok (some tPlain, ["Unknown source"]) ∧
    transform_data extQ tPlain "dep_of_energy" true
        = .ok (tPlain, ["Unknown source"]) :=
  unknown_source_returns_input extQ tPlain "dep_of_energy" true
    (by decide) (by decide)

/-- A table with two float columns; the IQR rule (the KS test of `extQ`
rejects normality) would flag the value 100 of column `b`, all quartiles
being 0. -/
def tC2 : Table :=
  { header := [("a", Dtype.float), ("b", Dtype.float)],
    rows := (List.replicate 8 [Cell.float 0, Cell.float 0]) ++
      [[Cell.float 0, Cell.float 100]] }

/-- `tC2` with its columns swapped, so that `b` is the first float column. -/
def tC2swap : Table :=
  { header := [("b", Dtype.float), ("a", Dtype.float)],
    rows := (List.replicate 8 [Cell.float 0, Cell.float 0]) ++
      [[Cell.float 100, Cell.float 0]] }

/-- C2: the claim says the outlier filter is applied to every float column;
in the code the `return df` sits inside the `for` loop, so only the first
float column is ever tested and filtered.  On `tC2` the outlier 100 in the
second column `b` survives untouched (the table comes back unchanged), yet
the same data with `b` first has the outlier row removed — the filter
depends on a column being first instead of applying to all. -/
theorem remove_outliers_only_first_column :
    remove_outliers extQ tC2 = some tC2 ∧
    Cell.float 100 ∈ tC2.colCells 1 ∧
    remove_outliers extQ tC2swap =
      some { header := [("b", Dtype.float), ("a", Dtype.float)],
             rows := List.replicate 8 [Cell.float 0, Cell.float 0] } := by
  refine ⟨by with_unfolding_all decide, by decide, by with_unfolding_all decide⟩

/-- A table whose configured numeric columns are `u` (variance 1) and `c`
(all cells equal: zero variance). -/
def tC3 : Table :=
  { header := [("u", Dtype.float), ("c", Dtype.float)],
    rows := [[Cell.float 1, Cell.float 5], [Cell.float 2, Cell.float 5],
             [Cell.float 3, Cell.float 5]] }

/-- C3: the claim (and the code's own comment, `discard numerical features
with same value for all entries`) says the zero-variance column `c` is
dropped; because data_transformation.py:74 rebinds `num_feats` to the
nonzero-variance features before line 75 builds the drop list from it, the
drop list is empty and `c` survives, un-normalized, with its constant
values, while `u` alone is standardized. -/
theorem process_num_features_keeps_zero_variance_col :
    process_num_features extQ tC3 ["u", "c"] =
      .ok { header := [("u", Dtype.float), ("c", Dtype.float)],
            rows := [[Cell.float (-1), Cell.float 5], [Cell.float 0, Cell.float 5],
                     [Cell.float 1, Cell.float 5]] } ∧
    stdIsZero (tC3.colCells 1) = true := by
  refine ⟨by with_unfolding_all decide, by with_unfolding_all decide⟩

/-! ## Duplicate removal (C8) -/

theorem dedupFirstAux_not_mem_seen {α : Type} [DecidableEq α] :
    ∀ (l seen : List α) (a : α), a ∈ dedupFirstAux seen l → a ∉ seen
  | [], _, a, h => by simp [dedupFirstAux] at h
  | b :: l, seen, a, h => by
      by_cases hb : b ∈ seen
      · rw [dedupFirstAux, if_pos hb] at h
        exact dedupFirstAux_not_mem_seen l seen a h
      · rw [dedupFirstAux, if_neg hb] at h
        rcases List.mem_cons.1 h with rfl | h'
        · exact hb
        · have h2 := dedupFirstAux_not_mem_seen l (b :: seen) a h'
          exact fun hs => h2 (List.mem_cons_of_mem _ hs)

theorem dedupFirstAux_nodup {α : Type} [DecidableEq α] :
    ∀ (l seen : List α), (dedupFirstAux seen l).Nodup
  | [], _ => by simp [dedupFirstAux]
  | b :: l, seen => by
      by_cases hb : b ∈ seen
      · rw [dedupFirstAux, if_pos hb]
        exact dedupFirstAux_nodup l seen
      · rw [dedupFirstAux, if_neg hb]
        refine List.nodup_cons.2 ⟨?_, dedupFirstAux_nodup l (b :: seen)⟩
        intro hmem
        exact dedupFirstAux_not_mem_seen l (b :: seen) b hmem (List.mem_cons_self b _)

theorem dedupFirstAux_eq_self {α : Type} [DecidableEq α] :
    ∀ (l seen : List α), l.Nodup → (∀ x ∈ l, x ∉ seen) →
      dedupFirstAux seen l = l
  | [], _, _, _ => rfl
  | b :: l, seen, hnd, hdisj => by
      have hb : b ∉ seen := hdisj b (List.mem_cons_self b l)
      rw [dedupFirstAux, if_neg hb]
      congr 1
      refine dedupFirstAux_eq_self l (b :: seen) (List.nodup_cons.1 hnd).2 ?_
      intro x hx hmem
      rcases List.mem_cons.1 hmem with rfl | hm
      · exact (List.nodup_cons.1 hnd).1 hx
      · exact hdisj x (List.mem_cons_of_mem _ hx) hm

/-- Removing duplicates while keeping first occurrences is idempotent on
plain lists. -/
theorem dedupFirst_idem {α : Type} [DecidableEq α] (l : List α) :
    dedupFirst (dedupFirst l) = dedupFirst l :=
  dedupFirstAux_eq_self _ [] (dedupFirstAux_nodup l []) (by simp)

/-- A table whose two rows differ only in the French duplicate column: the
first `remove_duplicates` keeps both rows (they are distinct) and then drops
the column, leaving two identical rows; a second application removes one. -/
def tC8 : Table :=
  { header := [("A", Dtype.obj), ("Groups With Access Code (French)", Dtype.obj)],
    rows := [[Cell.str "a", Cell.str "x"], [Cell.str "a", Cell.str "y"]] }

/-- C8 fails as stated: `remove_duplicates` deduplicates rows *before*
dropping the French column, so dropping the column can create new duplicate
rows and a second application changes the table. -/
theorem remove_duplicates_not_idempotent :
    remove_duplicates (remove_duplicates tC8) ≠ remove_duplicates tC8 := by
  decide

/-- C8 amended: on every table that does not contain the column
`'Groups With Access Code (French)'` (any table the column-drop half of the
step cannot touch), duplicate removal is idempotent. -/
theorem remove_duplicates_idempotent_no_french (t : Table)
    (h : "Groups With Access Code (French)" ∉ t.names) :
    remove_duplicates (remove_duplicates t) = remove_duplicates t := by
  have key : ∀ s : Table, "Groups With Access Code (French)" ∉ s.names →
      remove_duplicates s = { s with rows := dedupFirst s.rows } := by
    intro s hs
    unfold remove_duplicates
    dsimp only
    split
    · next hc => exact absurd hc hs
    · rfl
  rw [key t h, key { header := t.header, rows := dedupFirst t.rows } h]
  simp only [dedupFirst_idem]

/-- Witness for the amended C8 at a concrete French-free table. -/
theorem remove_duplicates_idempotent_no_french_w :
    remove_duplicates (remove_duplicates tPlain) = remove_duplicates tPlain :=
  remove_duplicates_idempotent_no_french tPlain (by decide)

/-! ## The EPA pipeline on float-free tables (C9) -/

/-- C9: whenever the table reaching the EPA branch's outlier step (after
duplicate removal, missing-data handling, type fixing and column dropping)
has no float-dtype column, the `for` loop of `remove_outliers` never runs,
Python falls off the function's end, and the whole cleaning pipeline
returns `None` instead of a table. -/
theorem process_data_epa_none_without_float_cols (ext : Ext) (t : Table)
    (verbose : Bool) (t1 t2 t3 : Table) (l1 l2 : List String)
    (h1 : deal_with_missing_data (remove_duplicates t) "epa" verbose = .ok (t1, l1))
    (h2 : fix_data_types ext t1 "epa" verbose = .ok (t2, l2))
    (h3 : remove_unnecessary_columns t2 "epa" = .ok t3)
    (h4 : (List.range t3.header.length).filter
        (fun j => (t3.header.getD j ("", Dtype.obj)).2 == Dtype.float) = []) :
    process_data ext t "epa" verbose = .ok (none, l1 ++ l2) := by
  unfold process_data
  rw [if_neg (by simp)]
  dsimp only
  rw [h1]
  simp only [bind, Except.bind]
  rw [h2]
  simp only [bind, Except.bind]
  rw [h3]
  simp only [bind, Except.bind]
  rw [if_neg (by simp)]
  unfold remove_outliers
  rw [h4]

/-- A minimal EPA table that passes every cleaning step and has no float
column: an object `drive`, two text timestamps, and the four int columns
the unnecessary-column step removes. -/
def tC9 : Table :=
  { header := [("drive", Dtype.obj), ("createdOn", Dtype.obj),
               ("modifiedOn", Dtype.obj), ("charge120", Dtype.int),
               ("range", Dtype.int), ("rangeCity", Dtype.int),
               ("rangeHwy", Dtype.int)],
    rows := [[Cell.str "2-Wheel Drive", Cell.str "Tue Jan 01 2013 EST",
              Cell.str "Tue Jan 01 2013 EST",
              Cell.int 0, Cell.int 0, Cell.int 0, Cell.int 0]] }

/-- `tC9` after the datetime conversions. -/
def tC9dates : Table :=
  { header := [("drive", Dtype.obj), ("createdOn", Dtype.datetime),
               ("modifiedOn", Dtype.datetime), ("charge120", Dtype.int),
               ("range", Dtype.int), ("rangeCity", Dtype.int),
               ("rangeHwy", Dtype.int)],
    rows := [[Cell.str "2-Wheel Drive", Cell.date 0, Cell.date 0,
              Cell.int 0, Cell.int 0, Cell.int 0, Cell.int 0]] }

/-- `tC9dates` after the unnecessary-column drop: no float column left. -/
def tC9final : Table :=
  { header := [("drive", Dtype.obj), ("createdOn", Dtype.datetime),
               ("modifiedOn", Dtype.datetime)],
    rows := [[Cell.str "2-Wheel Drive", Cell.date 0, Cell.date 0]] }

/-- Witness for C9: the concrete float-free EPA table yields `None`. -/
theorem process_data_epa_none_without_float_cols_w :
    process_data extQ tC9 "epa" false = .ok (none, ([] : List String) ++ []) :=
  process_data_epa_none_without_float_cols extQ tC9 false tC9 tC9dates tC9final
    [] []
    (by with_unfolding_all decide) (by with_unfolding_all decide)
    (by with_unfolding_all decide) (by with_unfolding_all decide)

/-! ## One-hot encoding (C7) -/

theorem mem_dedupFirstAux {α : Type} [DecidableEq α] :
    ∀ (l seen : List α) (a : α), a ∈ dedupFirstAux seen l ↔ (a ∈ l ∧ a ∉ seen)
  | [], _, a => by simp [dedupFirstAux]
  | b :: l, seen, a => by
      by_cases hb : b ∈ seen
      · rw [dedupFirstAux, if_pos hb, mem_dedupFirstAux l seen a]
        constructor
        · exact fun h => ⟨List.mem_cons_of_mem _ h.1, h.2⟩
        · rintro ⟨h1, h2⟩
          rcases List.mem_cons.1 h1 with rfl | h1'
          · exact absurd hb h2
          · exact ⟨h1', h2⟩
      · rw [dedupFirstAux, if_neg hb, List.mem_cons, mem_dedupFirstAux l (b :: seen) a]
        constructor
        · rintro (rfl | ⟨h1, h2⟩)
          · exact ⟨List.mem_cons_self _ _, hb⟩
          · exact ⟨List.mem_cons_of_mem _ h1, fun hs => h2 (List.mem_cons_of_mem _ hs)⟩
        · rintro ⟨h1, h2⟩
          by_cases hab : a = b
          · exact Or.inl hab
          · rcases List.mem_cons.1 h1 with rfl | h1'
            · exact Or.inl rfl
            · exact Or.inr ⟨h1', fun hs => (List.mem_cons.1 hs).elim hab h2⟩

theorem mem_dedupFirst {α : Type} [DecidableEq α] (l : List α) (a : α) :
    a ∈ dedupFirst l ↔ a ∈ l := by
  rw [dedupFirst, mem_dedupFirstAux]
  simp

theorem strLevels_nodup (cells : List Cell) : (strLevels cells).Nodup := by
  rw [strLevels]
  exact (List.perm_insertionSort _ _).nodup_iff.2 (dedupFirstAux_nodup _ [])

theorem mem_strLevels (cells : List Cell) (s : String) :
    s ∈ strLevels cells ↔ Cell.str s ∈ cells := by
  rw [strLevels, (List.perm_insertionSort _ _).mem_iff, mem_dedupFirst,
    List.mem_filterMap]
  constructor
  · rintro ⟨c, hc, hcs⟩
    cases c <;> simp_all
  · exact fun h => ⟨Cell.str s, h, rfl⟩

theorem countP_eq_ite_mem {α : Type} [DecidableEq α] (a : α) :
    ∀ (l : List α), l.Nodup →
      l.countP (fun x => decide (a = x)) = if a ∈ l then 1 else 0
  | [], _ => by simp
  | b :: l, hnd => by
      rcases List.nodup_cons.1 hnd with ⟨hb, hnd'⟩
      rw [List.countP_cons, countP_eq_ite_mem a l hnd']
      by_cases hab : a = b
      · subst hab
        simp [hb]
      · simp [hab]

/-- C7: for a categorical column with `k > 2` distinct levels and no
missing values, `pd.get_dummies(column, drop_first=True)` produces exactly
`k - 1` indicator columns (the first level in sorted order dropped), and in
every row exactly one indicator is 1 — except rows carrying the dropped
level, whose indicators are all 0. -/
theorem getDummies_k_minus_one (cells : List Cell) (colName : String)
    (hstr : ∀ c ∈ cells, ∃ s, c = Cell.str s)
    (hk : 2 < (strLevels cells).length) :
    (getDummies cells colName).1.length = (strLevels cells).length - 1 ∧
    ∀ c ∈ cells,
      ((indicatorRow cells c).countP (fun x => decide (x = Cell.int 1)) =
        if c = Cell.str ((strLevels cells).headI) then 0 else 1) ∧
      ∀ x ∈ indicatorRow cells c, x = Cell.int 0 ∨ x = Cell.int 1 := by
  obtain ⟨l0, rest, hcons⟩ : ∃ l0 rest, strLevels cells = l0 :: rest := by
    cases hlv : strLevels cells with
    | nil => rw [hlv] at hk; simp at hk
    | cons a r => exact ⟨a, r, rfl⟩
  have hnd := strLevels_nodup cells
  rw [hcons] at hnd
  obtain ⟨hl0, hndrest⟩ := List.nodup_cons.1 hnd
  refine ⟨by simp [getDummies], ?_⟩
  intro c hc
  obtain ⟨s, rfl⟩ := hstr c hc
  have hsmem : s ∈ strLevels cells := (mem_strLevels cells s).2 hc
  rw [hcons] at hsmem
  constructor
  · rw [indicatorRow, List.countP_map, hcons]
    simp only [List.drop_succ_cons, List.drop_zero, List.headI]
    have hcongr : List.countP
        ((fun x => decide (x = Cell.int 1)) ∘
          (fun l => if Cell.str s = Cell.str l then Cell.int 1 else Cell.int 0)) rest
        = List.countP (fun l => decide (s = l)) rest := by
      refine List.countP_congr ?_
      intro l _
      by_cases h : s = l <;> simp [h]
    rw [hcongr, countP_eq_ite_mem s rest hndrest]
    by_cases h0 : s = l0
    · subst h0
      rw [if_neg hl0, if_pos rfl]
    · rw [if_pos ((List.mem_cons.1 hsmem).resolve_left h0),
        if_neg (by simp [h0])]
  · intro x hx
    rw [indicatorRow] at hx
    obtain ⟨l, _, hl⟩ := List.mem_map.1 hx
    by_cases h : Cell.str s = Cell.str l
    · rw [if_pos h] at hl
      exact Or.inr hl.symm
    · rw [if_neg h] at hl
      exact Or.inl hl.symm


/-- A categorical column with three distinct levels and no missing cell. -/
def cellsC7 : List Cell :=
  [Cell.str "b", Cell.str "a", Cell.str "c", Cell.str "a"]

/-- Witness for C7 at the concrete three-level column. -/
theorem getDummies_k_minus_one_w :
    (getDummies cellsC7 "col").1.length = (strLevels cellsC7).length - 1 ∧
    ∀ c ∈ cellsC7,
      ((indicatorRow cellsC7 c).countP (fun x => decide (x = Cell.int 1)) =
        if c = Cell.str ((strLevels cellsC7).headI) then 0 else 1) ∧
      ∀ x ∈ indicatorRow cellsC7 c, x = Cell.int 0 ∨ x = Cell.int 1 :=
  getDummies_k_minus_one cellsC7 "col"
    (by
      intro c hc
      simp only [cellsC7, List.mem_cons, List.not_mem_nil, or_false] at hc
      rcases hc with rfl | rfl | rfl | rfl
      exacts [⟨"b", rfl⟩, ⟨"a", rfl⟩, ⟨"c", rfl⟩, ⟨"a", rfl⟩])
    (by with_unfolding_all decide)

/-! ## Column threshold and the missing-data invariant (C6, C1) -/

theorem except_bind_ok {ε α β : Type} {x : Except ε α} {f : α → Except ε β} {b : β}
    (h : (x >>= f) = .ok b) : ∃ a, x = .ok a ∧ f a = .ok b := by
  cases x with
  | ok a => exact ⟨a, rfl, h⟩
  | error e => simp [bind, Except.bind] at h

theorem except_map_ok {ε α β : Type} {x : Except ε α} {f : α → β} {b : β}
    (h : Except.map f x = .ok b) : ∃ a, x = .ok a ∧ f a = b := by
  cases x with
  | ok a =>
      refine ⟨a, rfl, ?_⟩
      simpa [Except.map] using h
  | error e => simp [Except.map] at h

theorem getIdx_ok {t : Table} {name : String} {j : Nat}
    (h : getIdx t name = .ok j) : t.colIdx name = some j := by
  rw [getIdx] at h
  cases hc : t.colIdx name with
  | none => rw [hc] at h; exact absurd h (by simp)
  | some v => rw [hc] at h; simp at h; rw [h]

theorem except_map_pair_ok {ε α β : Type} {x : Except ε α} {c : β} {a' : α} {c' : β}
    (h : Except.map (fun a => (a, c)) x = .ok (a', c')) : x = .ok a' ∧ c = c' := by
  cases x with
  | ok a =>
      simp [Except.map] at h
      exact ⟨by rw [h.1], h.2⟩
  | error e => simp [Except.map] at h

theorem foldl_rowfilter_header :
    ∀ (ls : List Nat) (t : Table),
      (ls.foldl (fun acc j =>
        { acc with rows := acc.rows.filter (fun r => !(r.getD j Cell.na == Cell.na)) })
        t).header = t.header
  | [], _ => rfl
  | a :: ls, t => by
      rw [List.foldl_cons]
      exact foldl_rowfilter_header ls _

theorem dropLowMissingRows_header (t : Table) :
    (dropLowMissingRows t).header = t.header := by
  rw [dropLowMissingRows]
  exact foldl_rowfilter_header _ _

theorem evFillStep_ok_header {t t' : Table} {c : String} {v : Cell}
    (h : evFillStep t c v = .ok t') : t'.header = t.header := by
  rw [evFillStep] at h
  obtain ⟨jc, hjc, h⟩ := except_bind_ok h
  obtain ⟨jf, hjf, h⟩ := except_bind_ok h
  cases h
  rfl

theorem evBranch_ok_header {t t' : Table} (h : evBranch t = .ok t') :
    t'.header = t.header := by
  rw [evBranch] at h
  obtain ⟨a, ha, h⟩ := except_bind_ok h
  obtain ⟨b, hb, h⟩ := except_bind_ok h
  obtain ⟨c, hc, h⟩ := except_bind_ok h
  rw [evFillStep_ok_header h, evFillStep_ok_header hc,
    evFillStep_ok_header hb, evFillStep_ok_header ha]

theorem epaDriveFilter_ok_header {t t' : Table} (h : epaDriveFilter t = .ok t') :
    t'.header = t.header := by
  rw [epaDriveFilter] at h
  obtain ⟨j, hj, h⟩ := except_bind_ok h
  cases h
  rfl

/-- On success, the only column changes of the missing-data step are the
initial ≥50% drop: the result's header is that of `dropHighMissingCols`. -/
theorem dealMissing_ok_header {t t' : Table} {source : String} {verbose : Bool}
    {logs : List String}
    (h : deal_with_missing_data t source verbose = .ok (t', logs)) :
    t'.header = (dropHighMissingCols t).header := by
  rw [deal_with_missing_data] at h
  by_cases h1 : source = "dep_energy"
  · rw [if_pos h1] at h
    obtain ⟨ha, -⟩ := except_map_pair_ok h
    rw [evBranch_ok_header ha, dropLowMissingRows_header]
  · rw [if_neg h1] at h
    by_cases h2 : source = "epa"
    · rw [if_pos h2] at h
      obtain ⟨ha, -⟩ := except_map_pair_ok h
      rw [epaDriveFilter_ok_header ha, dropLowMissingRows_header]
    · rw [if_neg h2] at h
      cases h
      exact dropLowMissingRows_header _

theorem names_selectColsWhere_mem (t : Table) (keep : Nat → Bool)
    (hnd : t.names.Nodup) (j : Nat) (hj : j < t.header.length) :
    ((t.names.getD j "") ∈ (selectColsWhere t keep).names) ↔ keep j = true := by
  have hlen : t.names.length = t.header.length := by
    simp [Table.names]
  have hgd : ∀ i, i < t.header.length →
      (t.header.getD i ("", Dtype.obj)).1 = t.names.getD i "" := by
    intro i hi
    rw [List.getD_eq_getElem _ _ hi,
      List.getD_eq_getElem _ _ (show i < t.names.length by omega)]
    simp [Table.names]
  have hn : (selectColsWhere t keep).names =
      ((List.range t.header.length).filter keep).map
        (fun i => (t.header.getD i ("", Dtype.obj)).1) := by
    simp [selectColsWhere, selectIdxs, Table.names, List.map_map]
  rw [hn]
  constructor
  · intro hmem
    obtain ⟨i, hi, hname⟩ := List.mem_map.1 hmem
    obtain ⟨hir, hik⟩ := List.mem_filter.1 hi
    have hilt : i < t.header.length := List.mem_range.1 hir
    rw [hgd i hilt] at hname
    have hij : i = j := by
      refine (@List.Nodup.getElem_inj_iff String t.names hnd i
        (by omega) j (by omega)).1 ?_
      rw [← List.getD_eq_getElem _ "" (show i < t.names.length by omega),
        ← List.getD_eq_getElem _ "" (show j < t.names.length by omega)]
      exact hname
    rw [← hij]
    exact hik
  · intro hk
    refine List.mem_map.2 ⟨j, List.mem_filter.2 ⟨List.mem_range.2 hj, hk⟩, ?_⟩
    exact hgd j hj

/-- C6: in the missing-data step, a column whose missing percentage
(computed on the step's input) is at least 50% — in particular exactly
50% — is dropped, and a column with missing percentage strictly below 50%
is retained. -/
theorem dealMissing_column_threshold (t : Table) (source : String)
    (verbose : Bool) (t' : Table) (logs : List String) (j : Nat)
    (h : deal_with_missing_data t source verbose = .ok (t', logs))
    (hnd : t.names.Nodup) (hj : j < t.header.length) :
    (50 ≤ colMissingPerc t j → (t.names.getD j "") ∉ t'.names) ∧
    (colMissingPerc t j < 50 → (t.names.getD j "") ∈ t'.names) := by
  have hnames : t'.names = (dropHighMissingCols t).names := by
    rw [Table.names, dealMissing_ok_header h]; rfl
  rw [hnames, dropHighMissingCols,
    names_selectColsWhere_mem t _ hnd j hj]
  constructor
  · intro hge hkeep
    exact absurd (of_decide_eq_true hkeep) (not_lt.2 hge)
  · intro hlt
    exact decide_eq_true hlt

/-- Column `j` of a row list has no missing cells. -/
def RowsClean (j : Nat) (rows : List (List Cell)) : Prop :=
  ∀ r ∈ rows, ¬ r.getD j Cell.na = Cell.na

theorem count_missing_eq_zero_of_rowsClean {t : Table} {j : Nat}
    (h : RowsClean j t.rows) : count_missing (t.colCells j) = 0 := by
  rw [count_missing, Table.colCells, List.countP_map, List.countP_eq_zero]
  intro r hr
  simpa using h r hr

theorem rowsClean_filter {j : Nat} {rows : List (List Cell)} (p : List Cell → Bool)
    (h : RowsClean j rows) : RowsClean j (rows.filter p) :=
  fun r hr => h r (List.mem_filter.1 hr).1

theorem rowsClean_filter_self (j : Nat) (rows : List (List Cell)) :
    RowsClean j (rows.filter (fun r => !(r.getD j Cell.na == Cell.na))) := by
  intro r hr
  have h2 := (List.mem_filter.1 hr).2
  simpa using h2

theorem getD_set_ne_na {r : List Cell} {j jc : Nat} {v : Cell}
    (hna : ¬ r.getD j Cell.na = Cell.na) (hv : ¬ v = Cell.na) :
    ¬ (r.set jc v).getD j Cell.na = Cell.na := by
  rw [List.getD_eq_getD_get?, List.get?_eq_getElem?, List.getElem?_set]
  by_cases hj : jc = j
  · subst hj
    by_cases hlen : jc < r.length
    · simpa [hlen] using hv
    · exact absurd (List.getD_eq_default _ _ (Nat.le_of_not_lt hlen)) hna
  · rw [if_neg hj, ← List.get?_eq_getElem?, ← List.getD_eq_getD_get?]
    exact hna

theorem rowsClean_map_fill {j jc : Nat} {v : Cell} {rows : List (List Cell)}
    (hv : ¬ v = Cell.na) (P : List Cell → Prop) [DecidablePred P]
    (h : RowsClean j rows) :
    RowsClean j (rows.map (fun r => if P r then r.set jc v else r)) := by
  intro r hr
  obtain ⟨r0, hr0, rfl⟩ := List.mem_map.1 hr
  by_cases hp : P r0
  · rw [if_pos hp]
    exact getD_set_ne_na (h r0 hr0) hv
  · rw [if_neg hp]
    exact h r0 hr0

theorem evFillStep_rows {t t' : Table} {c : String} {v : Cell}
    (h : evFillStep t c v = .ok t') :
    ∃ jc jf, t.colIdx c = some jc ∧ t.colIdx "Fuel Type Code" = some jf ∧
      t'.rows = (t.rows.map (fun r =>
        if r.getD jc Cell.na = Cell.na ∧ ¬ r.getD jf Cell.na = Cell.str "ELEC"
        then r.set jc v else r)).filter
          (fun r => !(r.getD jc Cell.na == Cell.na)) := by
  rw [evFillStep] at h
  obtain ⟨jc, hjc, h⟩ := except_bind_ok h
  obtain ⟨jf, hjf, h⟩ := except_bind_ok h
  cases h
  exact ⟨jc, jf, getIdx_ok hjc, getIdx_ok hjf, rfl⟩

theorem evFillStep_preserves {t t' : Table} {c : String} {v : Cell} {j : Nat}
    (hv : ¬ v = Cell.na) (h : evFillStep t c v = .ok t')
    (hc : RowsClean j t.rows) : RowsClean j t'.rows := by
  obtain ⟨jc, jf, _, _, hrows⟩ := evFillStep_rows h
  rw [hrows]
  exact rowsClean_filter _ (rowsClean_map_fill hv _ hc)

theorem evFillStep_establishes {t t' : Table} {c : String} {v : Cell} {jc : Nat}
    (h : evFillStep t c v = .ok t') (hjc : t.colIdx c = some jc) :
    RowsClean jc t'.rows := by
  obtain ⟨jc', jf, hjc', _, hrows⟩ := evFillStep_rows h
  rw [hjc] at hjc'
  cases hjc'
  rw [hrows]
  exact rowsClean_filter_self _ _

theorem colIdx_congr {s t : Table} (h : s.header = t.header) (n : String) :
    s.colIdx n = t.colIdx n := by
  rw [Table.colIdx, Table.colIdx, h]

/-- The four EV columns that the DEP_ENERGY branch fills and filters. -/
def evFillCols : List String :=
  ["EV Network", "EV Network Web", "EV Connector Types", "EV Level2 EVSE Num"]

theorem evBranch_preserves {t t' : Table} {j : Nat} (h : evBranch t = .ok t')
    (hc : RowsClean j t.rows) : RowsClean j t'.rows := by
  rw [evBranch] at h
  obtain ⟨a, ha, h⟩ := except_bind_ok h
  obtain ⟨b, hb, h⟩ := except_bind_ok h
  obtain ⟨c, hc2, h⟩ := except_bind_ok h
  have hNA : ¬ (Cell.str "Not Applicable") = Cell.na := by simp
  have h0 : ¬ (Cell.float 0) = Cell.na := by simp
  exact evFillStep_preserves h0 h
    (evFillStep_preserves hNA hc2
      (evFillStep_preserves hNA hb (evFillStep_preserves hNA ha hc)))

theorem evBranch_establishes {t t' : Table} {name : String} {j : Nat}
    (h : evBranch t = .ok t') (hname : name ∈ evFillCols)
    (hj : t.colIdx name = some j) : RowsClean j t'.rows := by
  rw [evBranch] at h
  obtain ⟨a, ha, h⟩ := except_bind_ok h
  obtain ⟨b, hb, h⟩ := except_bind_ok h
  obtain ⟨c, hc2, h⟩ := except_bind_ok h
  have hha := evFillStep_ok_header ha
  have hhb := evFillStep_ok_header hb
  have hhc := evFillStep_ok_header hc2
  have hNA : ¬ (Cell.str "Not Applicable") = Cell.na := by simp
  have h0 : ¬ (Cell.float 0) = Cell.na := by simp
  simp only [evFillCols, List.mem_cons, List.not_mem_nil, or_false] at hname
  rcases hname with rfl | rfl | rfl | rfl
  · exact evFillStep_preserves h0 h
      (evFillStep_preserves hNA hc2
        (evFillStep_preserves hNA hb (evFillStep_establishes ha hj)))
  · have hj' : a.colIdx "EV Network Web" = some j := by rw [colIdx_congr hha, hj]
    exact evFillStep_preserves h0 h
      (evFillStep_preserves hNA hc2 (evFillStep_establishes hb hj'))
  · have hj' : b.colIdx "EV Connector Types" = some j := by
      rw [colIdx_congr hhb, colIdx_congr hha, hj]
    exact evFillStep_preserves h0 h (evFillStep_establishes hc2 hj')
  · have hj' : c.colIdx "EV Level2 EVSE Num" = some j := by
      rw [colIdx_congr hhc, colIdx_congr hhb, colIdx_congr hha, hj]
    exact evFillStep_establishes h hj'

theorem epaDriveFilter_rows {t t' : Table} (h : epaDriveFilter t = .ok t') :
    ∃ jd, t.colIdx "drive" = some jd ∧
      t'.rows = t.rows.filter (fun r => !(r.getD jd Cell.na == Cell.na)) := by
  rw [epaDriveFilter] at h
  obtain ⟨jd, hjd, h⟩ := except_bind_ok h
  cases h
  exact ⟨jd, getIdx_ok hjd, rfl⟩

theorem foldl_rowfilter_preserves :
    ∀ (ls : List Nat) (t : Table) (j : Nat), RowsClean j t.rows →
      RowsClean j ((ls.foldl (fun acc i =>
        { acc with rows := acc.rows.filter (fun r => !(r.getD i Cell.na == Cell.na)) })
        t).rows)
  | [], _, _, h => h
  | a :: ls, t, j, h => by
      rw [List.foldl_cons]
      exact foldl_rowfilter_preserves ls _ j (rowsClean_filter _ h)

theorem foldl_rowfilter_establishes :
    ∀ (ls : List Nat) (t : Table) (j : Nat), j ∈ ls →
      RowsClean j ((ls.foldl (fun acc i =>
        { acc with rows := acc.rows.filter (fun r => !(r.getD i Cell.na == Cell.na)) })
        t).rows)
  | a :: ls, t, j, hj => by
      rw [List.foldl_cons]
      rcases List.mem_cons.1 hj with rfl | hj'
      · exact foldl_rowfilter_preserves ls _ j (rowsClean_filter_self _ _)
      · exact foldl_rowfilter_establishes ls _ j hj'

theorem dropLowMissingRows_clean (t : Table) (j : Nat)
    (hj : j < t.header.length) (hperc : colMissingPerc t j < 2) :
    RowsClean j (dropLowMissingRows t).rows := by
  rw [dropLowMissingRows]
  exact foldl_rowfilter_establishes _ t j
    (List.mem_filter.2 ⟨List.mem_range.2 hj, decide_eq_true hperc⟩)

theorem findIdx?_some_spec {α : Type} (p : α → Bool) :
    ∀ (l : List α) (j : Nat), List.findIdx? p l = some j →
      ∃ a, l.get? j = some a ∧ p a = true
  | [], j, h => by simp [List.findIdx?_nil] at h
  | b :: l, j, h => by
      rw [List.findIdx?_cons] at h
      by_cases hb : p b
      · rw [if_pos hb] at h
        cases h
        exact ⟨b, rfl, hb⟩
      · rw [if_neg hb, List.findIdx?_succ] at h
        obtain ⟨j0, hj0, rfl⟩ := Option.map_eq_some'.1 h
        obtain ⟨a, ha, hpa⟩ := findIdx?_some_spec p l j0 hj0
        exact ⟨a, ha, hpa⟩

/-- What a successful name lookup on a column-selected table says: the found
position `j'` indexes some original column `k` that was kept, and that
column carries the looked-up name. -/
theorem selectColsWhere_colIdx_spec {t : Table} {keep : Nat → Bool}
    {name : String} {j' : Nat}
    (h : (selectColsWhere t keep).colIdx name = some j') :
    ∃ k e, ((List.range t.header.length).filter keep).get? j' = some k ∧
      k < t.header.length ∧ keep k = true ∧
      t.header.get? k = some e ∧ e.1 = name := by
  rw [Table.colIdx] at h
  obtain ⟨e', he', hpe'⟩ := findIdx?_some_spec _ _ _ h
  rw [show (selectColsWhere t keep).header =
      ((List.range t.header.length).filter keep).map
        (fun k => t.header.getD k ("", Dtype.obj)) from rfl] at he'
  rw [List.get?_map] at he'
  obtain ⟨k, hk, hfk⟩ := Option.map_eq_some'.1 he'
  have hkmem : k ∈ (List.range t.header.length).filter keep :=
    List.get?_mem hk
  obtain ⟨hkr, hkk⟩ := List.mem_filter.1 hkmem
  have hklt : k < t.header.length := List.mem_range.1 hkr
  refine ⟨k, e', hk, hklt, hkk, ?_, eq_of_beq hpe'⟩
  rw [← hfk, List.getD_eq_getElem _ _ hklt, List.get?_eq_getElem?,
    List.getElem?_eq_getElem hklt]

/-- A successful name lookup pins the entry at the found index. -/
theorem colIdx_some_spec {t : Table} {name : String} {j : Nat}
    (h : t.colIdx name = some j) :
    ∃ e, t.header.get? j = some e ∧ e.1 = name := by
  rw [Table.colIdx] at h
  obtain ⟨e, he, hpe⟩ := findIdx?_some_spec _ _ _ h
  exact ⟨e, he, eq_of_beq hpe⟩

/-- Selecting columns leaves each kept column's cells untouched. -/
theorem selectIdxs_colCells {t : Table} {ks : List Nat} {j' k : Nat}
    (hk : ks.get? j' = some k) :
    (selectIdxs t ks).colCells j' = t.colCells k := by
  rw [Table.colCells, Table.colCells, selectIdxs, List.map_map]
  refine List.map_congr_left ?_
  intro r _
  show (ks.map (fun i => r.getD i Cell.na)).getD j' Cell.na = r.getD k Cell.na
  rw [List.getD_eq_getD_get?, List.get?_map, hk]
  rfl

theorem selectColsWhere_nRows (t : Table) (keep : Nat → Bool) :
    (selectColsWhere t keep).nRows = t.nRows := by
  simp [selectColsWhere, selectIdxs, Table.nRows]

theorem names_idx_inj {t : Table} (hnd : t.names.Nodup) {i k : Nat}
    {ei ek : String × Dtype}
    (hi : t.header.get? i = some ei) (hk : t.header.get? k = some ek)
    (hname : ei.1 = ek.1) : i = k := by
  have hil : i < t.header.length := (List.get?_eq_some.1 hi).1
  have hkl : k < t.header.length := (List.get?_eq_some.1 hk).1
  refine (@List.Nodup.getElem_inj_iff String t.names hnd i
    (by simpa [Table.names] using hil) k (by simpa [Table.names] using hkl)).1 ?_
  have hie : t.header[i] = ei := by
    have h2 := (List.get?_eq_some.1 hi).2
    simpa using h2
  have hke : t.header[k] = ek := by
    have h2 := (List.get?_eq_some.1 hk).2
    simpa using h2
  simp only [Table.names, List.getElem_map]
  rw [hie, hke, hname]

/-- C1 amended: on success, a retained column is guaranteed missing-free
when its input missing percentage is below 2%, and the specially-handled
columns (the filled EV columns for DEP_ENERGY, `'drive'` for EPA) are
missing-free as well; the counterexample shows the claim's blanket guarantee
fails for other columns in the [2%, 50%) band. -/
theorem dealMissing_retained_clean (t : Table) (source : String)
    (verbose : Bool) (t' : Table) (logs : List String) (name : String)
    (j j' : Nat)
    (h : deal_with_missing_data t source verbose = .ok (t', logs))
    (hnd : t.names.Nodup)
    (hj : t.colIdx name = some j)
    (hj' : t'.colIdx name = some j')
    (hcond : colMissingPerc t j < 2 ∨
      (source = "dep_energy" ∧ name ∈ evFillCols) ∨
      (source = "epa" ∧ name = "drive")) :
    count_missing (t'.colCells j') = 0 := by
  have hhdr : t'.header = (dropHighMissingCols t).header := dealMissing_ok_header h
  have hj1 : (dropHighMissingCols t).colIdx name = some j' := by
    rw [← colIdx_congr hhdr name]
    exact hj'
  have hj1' : (selectColsWhere t
      (fun i => decide (colMissingPerc t i < 50))).colIdx name = some j' := hj1
  obtain ⟨k, e, hk, hklt, hkk, hke, hkename⟩ := selectColsWhere_colIdx_spec hj1'
  obtain ⟨ej, hej, hejname⟩ := colIdx_some_spec hj
  have hkj : k = j := names_idx_inj hnd hke hej (by rw [hkename, hejname])
  subst hkj
  have hcells : (dropHighMissingCols t).colCells j' = t.colCells k := by
    rw [dropHighMissingCols, selectColsWhere]
    exact selectIdxs_colCells hk
  have hperc1 : colMissingPerc (dropHighMissingCols t) j' = colMissingPerc t k := by
    rw [colMissingPerc, colMissingPerc, hcells,
      show (dropHighMissingCols t).nRows = t.nRows from selectColsWhere_nRows t _]
  have hj'lt : j' < (dropHighMissingCols t).header.length := by
    obtain ⟨e1, he1, -⟩ := colIdx_some_spec hj1
    exact (List.get?_eq_some.1 he1).1
  have hlowClean : colMissingPerc t k < 2 →
      RowsClean j' (dropLowMissingRows (dropHighMissingCols t)).rows := by
    intro hlow
    exact dropLowMissingRows_clean _ j' hj'lt (by rw [hperc1]; exact hlow)
  have ht2hdr : (dropLowMissingRows (dropHighMissingCols t)).header =
      (dropHighMissingCols t).header := dropLowMissingRows_header _
  rw [deal_with_missing_data] at h
  by_cases hs1 : source = "dep_energy"
  · rw [if_pos hs1] at h
    obtain ⟨hb, -⟩ := except_map_pair_ok h
    rcases hcond with hlow | ⟨-, hev⟩ | ⟨habs, -⟩
    · exact count_missing_eq_zero_of_rowsClean
        (evBranch_preserves hb (hlowClean hlow))
    · refine count_missing_eq_zero_of_rowsClean (evBranch_establishes hb hev ?_)
      rw [colIdx_congr ht2hdr, hj1]
    · rw [habs] at hs1
      exact absurd hs1 (by decide)
  · rw [if_neg hs1] at h
    by_cases hs2 : source = "epa"
    · rw [if_pos hs2] at h
      obtain ⟨hb, -⟩ := except_map_pair_ok h
      obtain ⟨jd, hjd, hrows⟩ := epaDriveFilter_rows hb
      rcases hcond with hlow | ⟨hdep, -⟩ | ⟨-, hdrive⟩
      · refine count_missing_eq_zero_of_rowsClean ?_
        rw [hrows]
        exact rowsClean_filter _ (hlowClean hlow)
      · exact absurd hdep hs1
      · subst hdrive
        have hjd' : (dropLowMissingRows (dropHighMissingCols t)).colIdx "drive"
            = some j' := by
          rw [colIdx_congr ht2hdr, hj1]
        rw [hjd'] at hjd
        cases hjd
        refine count_missing_eq_zero_of_rowsClean ?_
        rw [hrows]
        exact rowsClean_filter_self _ _
    · rw [if_neg hs2] at h
      rcases hcond with hlow | ⟨hdep, -⟩ | ⟨hepa, -⟩
      · injection h with h1
        injection h1 with h2 h3
        rw [← h2]
        exact count_missing_eq_zero_of_rowsClean (hlowClean hlow)
      · exact absurd hdep hs1
      · exact absurd hepa hs2


/-- A row of the ten-row EPA example: a `drive` value and two floats. -/
def rowC6 (d : String) (a b : Cell) : List Cell := [Cell.str d, a, b]

/-- Ten rows, `drive` complete, column `A` exactly 50% missing, column `B`
30% missing (inside the [2%, 50%) band, not specially handled). -/
def tC6 : Table :=
  { header := [("drive", Dtype.obj), ("A", Dtype.float), ("B", Dtype.float)],
    rows := [rowC6 "w" Cell.na (Cell.float 1), rowC6 "x" Cell.na (Cell.float 2),
             rowC6 "y" Cell.na (Cell.float 3), rowC6 "z" Cell.na Cell.na,
             rowC6 "v" Cell.na Cell.na, rowC6 "a" (Cell.float 1) Cell.na,
             rowC6 "b" (Cell.float 2) (Cell.float 4),
             rowC6 "c" (Cell.float 3) (Cell.float 5),
             rowC6 "d" (Cell.float 4) (Cell.float 6),
             rowC6 "e" (Cell.float 5) (Cell.float 7)] }

/-- What the missing-data step returns on `tC6` for EPA: `A` dropped, every
row kept, and `B` still carrying its three missing cells. -/
def resC6 : Table :=
  { header := [("drive", Dtype.obj), ("B", Dtype.float)],
    rows := [[Cell.str "w", Cell.float 1], [Cell.str "x", Cell.float 2],
             [Cell.str "y", Cell.float 3], [Cell.str "z", Cell.na],
             [Cell.str "v", Cell.na], [Cell.str "a", Cell.na],
             [Cell.str "b", Cell.float 4], [Cell.str "c", Cell.float 5],
             [Cell.str "d", Cell.float 6], [Cell.str "e", Cell.float 7]] }

/-- Witness for C6: column `A`, at exactly 50% missing, is dropped, while
column `B` at 30% is retained. -/
theorem dealMissing_column_threshold_w :
    (tC6.names.getD 1 "" ∉ resC6.names) ∧ (tC6.names.getD 2 "" ∈ resC6.names) :=
  ⟨(dealMissing_column_threshold tC6 "epa" false resC6 [] 1
      (by with_unfolding_all decide) (by decide) (by decide)).1
      (by with_unfolding_all decide),
   (dealMissing_column_threshold tC6 "epa" false resC6 [] 2
      (by with_unfolding_all decide) (by decide) (by decide)).2
      (by with_unfolding_all decide)⟩

/-- C1 fails as stated: on `tC6` the EPA missing-data step succeeds, but the
retained column `B` (missing percentage 30%, in the [2%, 50%) band and not
the specially handled `drive`) still has three missing cells afterwards —
the step's contract of zero missing cells in every retained column does not
hold for all inputs. -/
theorem dealMissing_leaves_midband_missing :
    deal_with_missing_data tC6 "epa" false = .ok (resC6, []) ∧
    "B" ∈ resC6.names ∧ count_missing (resC6.colCells 1) = 3 :=
  ⟨by with_unfolding_all decide, by decide, by decide⟩

/-- Witness for the amended C1 at the concrete `tC6`: the specially-handled
`drive` column ends missing-free. -/
theorem dealMissing_retained_clean_w :
    count_missing (resC6.colCells 0) = 0 :=
  dealMissing_retained_clean tC6 "epa" false resC6 [] "drive" 0 0
    (by with_unfolding_all decide) (by decide) (by decide) (by decide)
    (Or.inr (Or.inr ⟨rfl, rfl⟩))

/-! ## Missing EV columns abort the DEP_ENERGY branch (C10) -/

theorem evBranch_ok_requires {t t' : Table} (h : evBranch t = .ok t') :
    ∀ name ∈ ["EV Network", "EV Network Web", "EV Connector Types",
      "EV Level2 EVSE Num", "Fuel Type Code"], ∃ j, t.colIdx name = some j := by
  rw [evBranch] at h
  obtain ⟨a, ha, h⟩ := except_bind_ok h
  obtain ⟨b, hb, h⟩ := except_bind_ok h
  obtain ⟨c, hc, h⟩ := except_bind_ok h
  obtain ⟨j1, jf1, hj1, hjf1, -⟩ := evFillStep_rows ha
  obtain ⟨j2, jf2, hj2, -, -⟩ := evFillStep_rows hb
  obtain ⟨j3, jf3, hj3, -, -⟩ := evFillStep_rows hc
  obtain ⟨j4, jf4, hj4, -, -⟩ := evFillStep_rows h
  have hha := evFillStep_ok_header ha
  have hhb := evFillStep_ok_header hb
  have hhc := evFillStep_ok_header hc
  intro name hname
  simp only [List.mem_cons, List.not_mem_nil, or_false] at hname
  rcases hname with rfl | rfl | rfl | rfl | rfl
  · exact ⟨j1, hj1⟩
  · exact ⟨j2, ((colIdx_congr hha _).symm.trans hj2)⟩
  · exact ⟨j3, ((colIdx_congr hha _).symm.trans
      ((colIdx_congr hhb _).symm.trans hj3))⟩
  · exact ⟨j4, ((colIdx_congr hha _).symm.trans ((colIdx_congr hhb _).symm.trans
      ((colIdx_congr hhc _).symm.trans hj4)))⟩
  · exact ⟨jf1, hjf1⟩

/-- C10: for DEP_ENERGY, the missing-data step unconditionally indexes the
EV columns and `'Fuel Type Code'`; whenever one of these five columns is
absent from the table after the ≥50%-missing column drop — in particular
when that very rule just dropped it — the step fails with a `KeyError`
instead of completing. -/
theorem dealMissing_dep_energy_missing_ev_col_errors (t : Table)
    (verbose : Bool) (name : String)
    (hname : name ∈ ["EV Network", "EV Network Web", "EV Connector Types",
      "EV Level2 EVSE Num", "Fuel Type Code"])
    (habs : name ∉ (dropHighMissingCols t).names) :
    ∃ e, deal_with_missing_data t "dep_energy" verbose = .error e := by
  rw [deal_with_missing_data, if_pos rfl]
  cases hev : evBranch (dropLowMissingRows (dropHighMissingCols t)) with
  | error e => exact ⟨e, by simp [Except.map]⟩
  | ok t' =>
      exfalso
      obtain ⟨j, hjidx⟩ := evBranch_ok_requires hev name hname
      rw [colIdx_congr (dropLowMissingRows_header _)] at hjidx
      obtain ⟨e2, he2, hen⟩ := colIdx_some_spec hjidx
      exact habs (by
        rw [Table.names]
        exact List.mem_map.2 ⟨e2, List.get?_mem he2, hen⟩)

/-- A table whose `'EV Network'` column is 100% missing: the ≥50% rule drops
it, and the DEP_ENERGY branch then fails looking it up. -/
def tC10 : Table :=
  { header := [("Fuel Type Code", Dtype.obj), ("EV Network", Dtype.obj)],
    rows := [[Cell.str "ELEC", Cell.na], [Cell.str "GAS", Cell.na]] }

/-- Witness for C10 at the concrete `tC10`. -/
theorem dealMissing_dep_energy_missing_ev_col_errors_w :
    ∃ e, deal_with_missing_data tC10 "dep_energy" false = .error e :=
  dealMissing_dep_energy_missing_ev_col_errors tC10 false "EV Network"
    (by decide) (by with_unfolding_all decide)

/-! ## Purity of the Transformer (C4) -/

/-- A table carrying every DEP_ENERGY configured feature, used to run
`transform_data` end to end. -/
def t12 : Table :=
  { header := [("EV Level2 EVSE Num", Dtype.float), ("Latitude", Dtype.float),
               ("Longitude", Dtype.float), ("Open Date", Dtype.datetime),
               ("Fuel Type Code", Dtype.obj), ("Country", Dtype.obj),
               ("State", Dtype.obj), ("Geocode Status", Dtype.obj),
               ("Status Code", Dtype.obj), ("Access Code", Dtype.obj),
               ("EV Network", Dtype.obj), ("EV Connector Types", Dtype.obj)],
    rows := [
      [Cell.float 0, Cell.float 0, Cell.float 0, Cell.date 100, Cell.str "ELEC",
       Cell.str "US", Cell.str "CA", Cell.str "GPS", Cell.str "E",
       Cell.str "public", Cell.str "NetA", Cell.str "J1772"],
      [Cell.float 1, Cell.float 1, Cell.float 1, Cell.date 200, Cell.str "ELEC",
       Cell.str "US", Cell.str "CA", Cell.str "GPS", Cell.str "E",
       Cell.str "public", Cell.str "NetA", Cell.str "J1772"],
      [Cell.float 2, Cell.float 2, Cell.float 2, Cell.date 300, Cell.str "GAS",
       Cell.str "CA", Cell.str "WA", Cell.str "200-8", Cell.str "P",
       Cell.str "private", Cell.str "NetB", Cell.str "J1772 CHADEMO"]] }

/-- C4 fails as stated: `process_date_features` reads the wall clock
(`datetime.datetime.now`) while converting date columns to day counts, so
two invocations of the Transformer with identical (table, source, verbosity)
arguments but different clock readings return different tables — here the
`'Open Date'` recency column differs. -/
theorem transform_data_depends_on_clock :
    transform_data (extNow 0) t12 "dep_energy" true ≠
      transform_data (extNow 1000) t12 "dep_energy" true := by
  with_unfolding_all decide

/-- C4 amended: for a fixed clock reading the Transformer is a function of
(table, source) only — in particular the verbosity flag never changes the
returned table, only the diagnostics. -/
theorem transform_data_verbose_independent (ext : Ext) (t : Table)
    (source : String) (v1 v2 : Bool) :
    (transform_data ext t source v1).map Prod.fst =
      (transform_data ext t source v2).map Prod.fst := by
  rw [transform_data, transform_data]
  by_cases hs : source = "dep_energy" ∨ source = "epa"
  · rw [if_neg (not_not_intro hs), if_neg (not_not_intro hs)]
    cases selectByNames t (features_to_keep source) with
    | error e => rfl
    | ok t1 =>
      dsimp only
      cases process_num_features ext t1 (num_features_to_keep source) with
      | error e => rfl
      | ok t2 =>
        dsimp only
        cases process_date_features ext t2 (date_features_to_keep source) source with
        | error e => rfl
        | ok t3 =>
          dsimp only
          cases process_cat_features t3 (cat_features_to_keep source) with
          | error e => rfl
          | ok t4 =>
            dsimp only
            cases process_tag_features t4 (tag_features_to_keep source) with
            | error e => rfl
            | ok t5 => simp [Except.map]
  · rw [if_pos hs, if_pos hs]

end CIT
